import Mathlib

/-!
Verification of the dataset listing/filtering/caching pipeline of the
`aitest` repository (three notebook widgets browsing the Hugging Face
dataset catalog).  The Python sources are shallowly embedded: dynamic
"card data" dictionaries become an inductive `PyVal` mirroring Python's
`None`/`str`/`list`/`dict` values together with their truthiness, the
record normalizers (`build_dataset_record` of `hf_top_datasets_ui.py`
and the `DatasetStats` construction of `hf_datasets_viewer.py`) become
total functions, the filter/limit loops become structural recursions,
and the two in-memory caches (the explicit TTL dictionary and the
`functools.lru_cache` decorator stacked on top of it) become explicit
state passing.  Timestamps are modelled as integers (seconds); network
calls are abstracted as explicit function arguments or `Except` values
so that both the success and the failure paths of the source can be
evaluated.
-/

/-- Python value, restricted to the shapes the widgets manipulate:
`None`, strings, lists and string-keyed dicts (the `cardData` payload).
Lookup in a dict takes the first matching key, which agrees with Python
dicts whose keys are unique. -/
inductive PyVal where
  | none : PyVal
  | str (s : String) : PyVal
  | list (xs : List PyVal) : PyVal
  | dict (kvs : List (String × PyVal)) : PyVal

/-- Python truthiness for the modelled values: `None`, `''`, `[]` and
an empty dict are falsy, everything else is truthy. -/
def pyTruthy : PyVal → Bool
  | .none => false
  | .str s => !(s = "")
  | .list xs => !xs.isEmpty
  | .dict kvs => !kvs.isEmpty

/-- Python's `a or b`: `a` if truthy, else `b`. -/
def pyOr (a b : PyVal) : PyVal :=
  if pyTruthy a then a else b

mutual

/-- Python `repr` for the modelled values (used by `str()` on
containers). -/
def pyRepr : PyVal → String
  | .none => "None"
  | .str s => "'" ++ s ++ "'"
  | .list xs => "[" ++ pyReprList xs ++ "]"
  | .dict kvs => "\x7b" ++ pyReprDict kvs ++ "\x7d"

def pyReprList : List PyVal → String
  | [] => ""
  | [x] => pyRepr x
  | x :: xs => pyRepr x ++ ", " ++ pyReprList xs

def pyReprDict : List (String × PyVal) → String
  | [] => ""
  | [kv] => "'" ++ kv.1 ++ "': " ++ pyRepr kv.2
  | kv :: kvs => "'" ++ kv.1 ++ "': " ++ pyRepr kv.2 ++ ", " ++ pyReprDict kvs

end

/-- Python `str()` for the modelled values. -/
def pyStr : PyVal → String
  | .none => "None"
  | .str s => s
  | .list xs => "[" ++ pyReprList xs ++ "]"
  | .dict kvs => "\x7b" ++ pyReprDict kvs ++ "\x7d"

/-- Lookup `d.get(k)` on the modelled dict (with `(card or {}).get(k)`
semantics: on a non-dict -- in the sources always `None` -- the `or {}`
guard turns the receiver into the empty dict, so the lookup yields
`None`). -/
def pvGet (v : PyVal) (k : String) : PyVal :=
  match v with
  | .dict kvs => ((kvs.find? (fun kv => kv.1 = k)).map Prod.snd).getD .none
  | _ => .none

/-- Model of `_normalize_list` of `hf_top_datasets_ui.py`: `None` becomes `[]`,
a string becomes a one-element list, a dict contributes its values, a
list is kept as is. -/
def normalizeList : PyVal → List PyVal
  | .none => []
  | .str s => [.str s]
  | .dict kvs => kvs.map Prod.snd
  | .list xs => xs

/-- Python's `str.lower()` (ASCII case folding, which covers every
string the widgets compare). -/
def pyLower (s : String) : String :=
  ⟨s.data.map Char.toLower⟩

/-- Python's `str.strip()`: drop leading and trailing whitespace. -/
def pyStrip (s : String) : String :=
  ⟨((s.data.dropWhile Char.isWhitespace).reverse.dropWhile Char.isWhitespace).reverse⟩

/-- Substring test, modelling Python's `in` on strings. -/
def strContains (hay pat : String) : Bool :=
  decide (pat.toList <:+: hay.toList)

/-- Helper for `pySplit`: walk the characters, cutting at each
separator (`cur` holds the current chunk reversed). -/
def pySplitGo (sep : Char) : List Char → List Char → List String
  | [] => fun cur => [⟨cur.reverse⟩]
  | c :: cs => fun cur =>
    if c = sep then (⟨cur.reverse⟩ : String) :: pySplitGo sep cs []
    else pySplitGo sep cs (c :: cur)

/-- Python's `str.split(sep)` for a one-character separator: always
returns at least one chunk, and empty chunks are kept (`'a/'.split('/')
== ['a', '']`). -/
def pySplit (sep : Char) (s : String) : List String :=
  pySplitGo sep s.data []

/-- One step of `_lower_flatten`'s loop body: the strings contributed
by one element of the input list. -/
def lowerFlattenOne : PyVal → List String
  | .dict kvs => (kvs.map Prod.snd).filterMap (fun v =>
      match v with
      | .str s => some (pyLower s)
      | _ => Option.none)
  | .list ys => ys.map (fun y => pyLower (pyStr y))
  | x => [pyLower (pyStr x)]

/-- Model of `_lower_flatten` of `hf_top_datasets_ui.py`: flatten to lowercase
strings, then deduplicate.  The source deduplicates through a Python
`set` whose iteration order is unspecified; we use the canonical
`List.dedup`, which is set-equal to the source's result (every property
the widgets use -- membership, emptiness, length -- is
order-independent). -/
def lowerFlatten (items : List PyVal) : List String :=
  (items.flatMap lowerFlattenOne).dedup

/-- Model of `extract_tasks`: first truthy of `task_categories`, `task_ids`,
`tasks`, flattened to a deduplicated lowercase list. -/
def extractTasks (card : PyVal) : List String :=
  lowerFlatten (normalizeList (pyOr (pvGet card "task_categories")
    (pyOr (pvGet card "task_ids") (pvGet card "tasks"))))

/-- Model of `extract_languages`: first truthy of `language`, `languages`,
`langs`, flattened to a deduplicated lowercase list. -/
def extractLanguages (card : PyVal) : List String :=
  lowerFlatten (normalizeList (pyOr (pvGet card "language")
    (pyOr (pvGet card "languages") (pvGet card "langs"))))

/-- A raw catalog record, as the `huggingface_hub` client hands it to
the widgets.  `id` is always present; the other attributes are read
with `getattr(..., default)` in the sources, so an absent attribute and
an attribute holding `None` are both modelled as `Option.none`.
Timestamps are seconds as integers. -/
structure RawInfo where
  id : String
  downloads : Option Int := Option.none
  likes : Option Int := Option.none
  lastModified : Option Int := Option.none
  createdAt : Option Int := Option.none
  description : Option String := Option.none
  tags : Option (List String) := Option.none
  cardData : PyVal := .none
  sizeInBytes : Option Int := Option.none
  siblings : Option (List String) := Option.none

/-- The flat record built by `build_dataset_record` of
`hf_top_datasets_ui.py`. -/
structure Record where
  id : String
  downloads : Option Int
  likes : Option Int
  lastModified : Option Int
  card : PyVal
  tasks : List String
  languages : List String
  license : PyVal

/-- Model of `build_dataset_record` of `hf_top_datasets_ui.py`: a pure total
mapping from a raw record to the flat record; missing attributes stay
`None`, tag-like fields flatten to deduplicated lowercase lists. -/
def buildDatasetRecord (info : RawInfo) : Record :=
  let card := info.cardData
  { id := info.id
    downloads := info.downloads
    likes := info.likes
    lastModified := info.lastModified
    card := card
    tasks := extractTasks card
    languages := extractLanguages card
    license := pvGet card "license" }

/-- The per-record filter of `list_all_time` (and, identically, of the
record loop in `list_trending`): search text against id and pretty
name, task membership, language (with the special `multi` value),
license and card-data presence.  All predicates are conjoined; a record
is appended exactly when none of the `continue` branches fires. -/
def recordPred (searchText task language : String)
    (requireLicense requireCarddata : Bool) (r : Record) : Bool :=
  let search := pyLower (pyStrip searchText)
  (if search = "" then true
   else
     let pretty := pyOr (pvGet (pyOr r.card (.dict [])) "pretty_name") (.str "")
     strContains (pyLower r.id) search || strContains (pyLower (pyStr pretty)) search)
  && (if task = "Any" then true else r.tasks.contains (pyLower task))
  && (if language = "Any" then true
      else if language = "multi" then
        decide (1 < r.languages.length) || r.languages.contains "multilingual"
      else r.languages.contains (pyLower language))
  && (if requireLicense then pyTruthy r.license else true)
  && (if requireCarddata then pyTruthy r.card else true)

/-- The accumulation loop of `list_all_time`: build each record, skip
it unless the filter predicate holds, append it otherwise, and break
once `limit` records have been collected (the source checks
`len(records) >= limit` after appending). -/
def listAllTimeGo (pred : Record → Bool) (limit : Nat) :
    List RawInfo → List Record → List Record
  | [] => fun acc => acc.reverse
  | info :: infos => fun acc =>
    let r := buildDatasetRecord info
    if pred r then
      if limit ≤ acc.length + 1 then (r :: acc).reverse
      else listAllTimeGo pred limit infos (r :: acc)
    else listAllTimeGo pred limit infos acc

/-- Model of `list_all_time` of `hf_top_datasets_ui.py`, with the backend list
(already sorted by the remote API) passed in explicitly. -/
def listAllTime (infos : List RawInfo) (limit : Nat)
    (searchText task language : String)
    (requireLicense requireCarddata : Bool) : List Record :=
  listAllTimeGo (recordPred searchText task language requireLicense requireCarddata)
    limit infos []

/-- Python's `a or 0` on an optional integer, as used for the popularity
counters of `hf_datasets_viewer.py` (`getattr(info, 'downloads', 0) or
0`): a missing or `None` attribute and the falsy value `0` both give
`0`, any other integer passes through. -/
def pyOrZero : Option Int → Int
  | Option.none => 0
  | some n => if n = 0 then 0 else n

/-- The `DatasetStats` dataclass of `hf_datasets_viewer.py`. -/
structure DatasetStats where
  id : String
  author : String
  name : String
  description : String
  downloads : Int
  likes : Int
  createdAt : Int
  updatedAt : Int
  tags : List String
  url : String
  sizeBytes : Option Int
  fileCount : Option Nat
deriving DecidableEq

/-- The `DatasetStats` construction inside
`DatasetManager.get_dataset_stats`: split the id into author and name,
default the description to the empty string, the counters to `0`, the
timestamps to `datetime.now()` (`now`), and the tag list to `[]`.
`created_at` uses only the `getattr` default while `updated_at`
additionally applies `or now`; both collapse to the same `Option`
handling here because a missing attribute and `None` are identified. -/
def mkStats (now : Int) (datasetId : String) (info : RawInfo) : DatasetStats :=
  { id := datasetId
    author := if strContains datasetId "/" then (pySplit '/' datasetId).headD datasetId
              else "unknown"
    name := (pySplit '/' datasetId).getLastD datasetId
    description := match info.description with
      | Option.none => ""
      | some s => if s = "" then "" else s
    downloads := pyOrZero info.downloads
    likes := pyOrZero info.likes
    createdAt := info.createdAt.getD now
    updatedAt := info.lastModified.getD now
    tags := match info.tags with
      | Option.none => []
      | some ts => if ts.isEmpty then [] else ts
    url := "https://huggingface.co/datasets/" ++ datasetId
    sizeBytes := info.sizeInBytes
    fileCount := (info.siblings.map List.length) }

/-- Insertion step of a stable descending sort: the new element `x`
(earlier in the input than everything in `l`) is placed before the
first element whose key is not larger, so equal-key elements keep their
input order.  Models Python's stable `list.sort(key=..., reverse=True)`
used in `DatasetManager._apply_filters`; a stable sort's output is
uniquely determined by the key order, so any faithful stable sort is
extensionally the source's. -/
def insertDesc (key : DatasetStats → Int) (x : DatasetStats) :
    List DatasetStats → List DatasetStats
  | [] => [x]
  | y :: ys => if key y ≤ key x then x :: y :: ys else y :: insertDesc key x ys

/-- Stable descending sort by an integer key (see `insertDesc`). -/
def pySortDesc (key : DatasetStats → Int) : List DatasetStats → List DatasetStats
  | [] => []
  | x :: xs => insertDesc key x (pySortDesc key xs)

/-- The sort key chosen by `_apply_filters` for each recognized
`sort_by` value. -/
def sortKeyOf (sortBy : String) (d : DatasetStats) : Int :=
  if sortBy = "downloads" then d.downloads
  else if sortBy = "likes" then d.likes
  else if sortBy = "updated" then d.updatedAt
  else if sortBy = "created" then d.createdAt
  else 0

/-- The time-filtering block of `DatasetManager._apply_filters`: for a
time period other than `'all'` compute a cutoff (`now` minus the
window, in seconds; an unrecognized period leaves the cutoff at `now`)
and keep only datasets whose `updated_at` is at or after it. -/
def timeFiltered (now : Int) (timePeriod : String)
    (datasets : List DatasetStats) : List DatasetStats :=
  if timePeriod = "all" then datasets
  else
    let cutoff :=
      if timePeriod = "7d" then now - 7 * 86400
      else if timePeriod = "30d" then now - 30 * 86400
      else if timePeriod = "90d" then now - 90 * 86400
      else now
    datasets.filter (fun d => cutoff ≤ d.updatedAt)

/-- Model of `DatasetManager._apply_filters`: time-filter, then stable-sort
descending by the chosen key (an unrecognized `sort_by` leaves the
order untouched). -/
def applyFilters (now : Int) (timePeriod sortBy : String)
    (datasets : List DatasetStats) : List DatasetStats :=
  let ds := timeFiltered now timePeriod datasets
  if sortBy = "downloads" then pySortDesc (fun d => d.downloads) ds
  else if sortBy = "likes" then pySortDesc (fun d => d.likes) ds
  else if sortBy = "updated" then pySortDesc (fun d => d.updatedAt) ds
  else if sortBy = "created" then pySortDesc (fun d => d.createdAt) ds
  else ds

/-- The collection loop of `DatasetManager.get_popular_datasets`: walk
the fetched list, stop as soon as `limit` stats have been collected
(the source checks `len(dataset_stats) >= limit` at the top of the
loop), look up each dataset's stats (`None` results are skipped). -/
def collectStats (statsOf : RawInfo → Option DatasetStats) (limit : Nat) :
    List RawInfo → List DatasetStats → List DatasetStats
  | [] => fun acc => acc.reverse
  | d :: ds => fun acc =>
    if limit ≤ acc.length then acc.reverse
    else
      match statsOf d with
      | some s => collectStats statsOf limit ds (s :: acc)
      | Option.none => collectStats statsOf limit ds acc

/-- Model of `DatasetManager.get_popular_datasets` (success path, cache aside):
collect at most `limit` valid stats from the fetched list, apply the
time filter and the sort, and truncate to `limit` again.  The stats
lookup (`self.get_dataset_stats`) is abstracted as `statsOf`; on a
fresh manager it is `fun d => some (mkStats now d.id d)` for every
dataset whose detail fetch succeeds. -/
def getPopularDatasets (statsOf : RawInfo → Option DatasetStats) (now : Int)
    (timePeriod : String) (limit : Nat) (sortBy : String)
    (datasets : List RawInfo) : List DatasetStats :=
  (applyFilters now timePeriod sortBy (collectStats statsOf limit datasets [])).take limit

/-- Model of `DatasetManager.get_popular_datasets` including its `try`/`except`
envelope: any failure of the list fetch is caught, printed, and turned
into the empty list (`return []`). -/
def getPopularDatasetsTop (fetched : Except String (List RawInfo))
    (statsOf : RawInfo → Option DatasetStats) (now : Int)
    (timePeriod : String) (limit : Nat) (sortBy : String) : List DatasetStats :=
  match fetched with
  | .error _ => []
  | .ok datasets => getPopularDatasets statsOf now timePeriod limit sortBy datasets

/-- State of one `DatasetManager` instance relevant to
`get_dataset_stats`: the memo table installed by the `@lru_cache`
decorator (keyed by the argument; `None` results are memoized too), the
explicit `_stats_cache` TTL dictionary of `(fetched_at, stats)` pairs,
and a count of how many times the underlying producer (`dataset_info`)
has been invoked.  Assoc lists with the newest entry in front model the
dictionaries; `maxsize=100` eviction never fires in the scenarios
proved here (a single key). -/
structure MgrState where
  lru : List (String × Option DatasetStats)
  statsCache : List (String × (Int × DatasetStats))
  fetchCount : Nat

/-- First-match association lookup (Python dict access). -/
def lookupA {α : Type} (l : List (String × α)) (k : String) : Option α :=
  (l.find? (fun kv => kv.1 = k)).map Prod.snd

/-- The body of `get_dataset_stats` past the `lru_cache` layer: consult
the TTL cache (`time.time() - cache_time < self.cache_timeout`, with
`cache_timeout = 3600`), otherwise call `dataset_info` (counted), build
the stats and store `(now, stats)`; a failing fetch is caught and
yields `None` without touching the TTL cache. -/
def getDatasetStatsBody (fetch : String → Option RawInfo) (now : Int)
    (datasetId : String) (st : MgrState) : Option DatasetStats × MgrState :=
  match lookupA st.statsCache datasetId with
  | some (t, s) =>
    if now - t < 3600 then (some s, st)
    else
      match fetch datasetId with
      | Option.none => (Option.none, { st with fetchCount := st.fetchCount + 1 })
      | some info =>
        let stats := mkStats now datasetId info
        (some stats,
          { st with statsCache := (datasetId, (now, stats)) :: st.statsCache
                    fetchCount := st.fetchCount + 1 })
  | Option.none =>
    match fetch datasetId with
    | Option.none => (Option.none, { st with fetchCount := st.fetchCount + 1 })
    | some info =>
      let stats := mkStats now datasetId info
      (some stats,
        { st with statsCache := (datasetId, (now, stats)) :: st.statsCache
                  fetchCount := st.fetchCount + 1 })

/-- Model of `DatasetManager.get_dataset_stats` as called: the `@lru_cache`
decorator first consults its memo table and, on a hit, returns the
memoized value without running the body at all; on a miss it runs the
body and memoizes the result (including `None`). -/
def getDatasetStats (fetch : String → Option RawInfo) (now : Int)
    (datasetId : String) (st : MgrState) : Option DatasetStats × MgrState :=
  match lookupA st.lru datasetId with
  | some v => (v, st)
  | Option.none =>
    let r := getDatasetStatsBody fetch now datasetId st
    (r.1, { r.2 with lru := (datasetId, r.1) :: r.2.lru })

/-- The id extraction of `list_trending`: for each trending item take
the first truthy of `repoId`, `id`, `name` and keep it when truthy. -/
def trendIds (data : List PyVal) : List String :=
  data.filterMap (fun item =>
    let rid := pyOr (pvGet item "repoId") (pyOr (pvGet item "id") (pvGet item "name"))
    if pyTruthy rid then some (pyStr rid) else Option.none)

/-- The record loop of `list_trending`: resolve each id through the
per-id detail lookup (a failing lookup is caught by `try`/`except
continue` and skipped), build the record, apply the same filter
predicate as `list_all_time`, and break once `limit` records are
collected. -/
def listTrendingGo (infoOf : String → Option RawInfo) (pred : Record → Bool)
    (limit : Nat) : List String → List Record → List Record
  | [] => fun acc => acc.reverse
  | rid :: rids => fun acc =>
    match infoOf rid with
    | Option.none => listTrendingGo infoOf pred limit rids acc
    | some info =>
      let r := buildDatasetRecord info
      if pred r then
        if limit ≤ acc.length + 1 then (r :: acc).reverse
        else listTrendingGo infoOf pred limit rids (r :: acc)
      else listTrendingGo infoOf pred limit rids acc

/-- Model of `list_trending` of `hf_top_datasets_ui.py`.  The HTTP
request/decoding of the trending endpoint is the `fetched` argument;
the source wraps it in `try`/`except Exception: return []`, so a
failure yields the empty list.  `infoOf` is the per-id
`cached_dataset_info` lookup. -/
def listTrending (fetched : Except String (List PyVal))
    (infoOf : String → Option RawInfo) (limit : Nat)
    (searchText task language : String)
    (requireLicense requireCarddata : Bool) : List Record :=
  match fetched with
  | .error _ => []
  | .ok data =>
    listTrendingGo infoOf
      (recordPred searchText task language requireLicense requireCarddata)
      limit (trendIds data) []

/-- Outcome of the qwen3 click handler `show_dataset_details`
(everything it writes into the output area; rendering markup is the
host's concern, so a found dataset is carried as the record it would
print). -/
inductive DetailsOutcome where
  | printedDetails (d : RawInfo) : DetailsOutcome
  | printedNotFound (msg : String) : DetailsOutcome
  | printedError (msg : String) : DetailsOutcome

/-- Model of `show_dataset_details` of `hf_datasets_explorer.py`: re-fetch the
dataset list (`refetch`; an exception is caught and printed), look for
the clicked id in it, print the details when found and the message
`Dataset <id> not found.` otherwise.  No exception is raised in the
not-found case. -/
def showDatasetDetails (refetch : Except String (List RawInfo))
    (datasetId : String) : DetailsOutcome :=
  match refetch with
  | .error e => .printedError ("Error fetching dataset details: " ++ e)
  | .ok datasets =>
    match datasets.find? (fun ds => ds.id = datasetId) with
    | some ds => .printedDetails ds
    | Option.none => .printedNotFound ("Dataset " ++ datasetId ++ " not found.")

/-- Outcome of the gpt5 click handler `on_select`: either the details
panel renders a record, or the caught exception's text is shown. -/
inductive SelectOutcome where
  | rendered (r : Record) : SelectOutcome
  | errorShown (msg : String) : SelectOutcome

/-- Model of `on_select` of `hf_top_datasets_ui.py`: look the clicked tooltip id
up in `_current_records`; when absent, fall back to fetching the
dataset info directly (`cached_dataset_info`) and render the record
built from it; any exception is caught and its text shown in the
details panel. -/
def onSelect (currentRecords : List (String × Record))
    (fetchInfo : String → Except String RawInfo) (datasetId : String) :
    SelectOutcome :=
  match lookupA currentRecords datasetId with
  | some rec => .rendered rec
  | Option.none =>
    match fetchInfo datasetId with
    | .ok info => .rendered (buildDatasetRecord info)
    | .error e => .errorShown e

/-- A selector button: its (possibly shortened) caption and its
tooltip, the only attributes the selection logic reads. -/
structure Btn where
  description : String
  tooltip : String
deriving DecidableEq

/-- The mutable selection state of a `ButtonBox`: the button list (the
`Box` children mirror it one-for-one), the selected index (`-1` when
none) and the selected button (`None` when none).  Styling is purely
visual and not modelled. -/
structure ButtonBox where
  buttons : List Btn
  position : Int
  button : Option Btn
deriving DecidableEq

/-- Model of `ButtonBox._clicker` restricted to its state effect: remember the
clicked button's index and the button itself (the clicked button is
always one of `self.buttons`). -/
def clickButton (bb : ButtonBox) (i : Nat) (h : i < bb.buttons.length) : ButtonBox :=
  { bb with position := (i : Int), button := some (bb.buttons.get ⟨i, h⟩) }

/-- Model of `ButtonBox.remove` of `hf_top_datasets_ui.py` (gpt5 variant): a
`None` position defaults to the selected one; an out-of-range or
negative position returns unchanged; otherwise the button at that
index is removed and the selection is cleared (`self.button,
self.position = None, -1`). -/
def removeG (bb : ButtonBox) (position : Option Int) : ButtonBox :=
  let p : Int := position.getD bb.position
  if ¬ p < bb.buttons.length ∨ p < 0 then bb
  else
    { bb with buttons := bb.buttons.take p.toNat ++ bb.buttons.drop (p.toNat + 1)
              position := -1
              button := Option.none }

/-- Model of `ButtonBox.remove` of `hf_datasets_viewer.py` and
`hf_datasets_explorer.py` (sonnet4/qwen3 variant): the guards use
Python truthiness (`if not position`), so both `None` and `0` fall
back to the stored selection, and a (possibly substituted) position of
`0` always returns unchanged; an actual removal clears the
selection. -/
def removeSAt (bb : ButtonBox) (p : Int) : ButtonBox :=
  if p = 0 ∨ ¬ p < bb.buttons.length ∨ p < 0 then bb
  else
    { bb with buttons := bb.buttons.take p.toNat ++ bb.buttons.drop (p.toNat + 1)
              position := -1
              button := Option.none }

/-- The argument substitution of the sonnet4/qwen3 `remove` (`if not
position: position = self.position`): both `None` and the falsy `0`
fall back to the stored selection before the guards of `removeSAt`
run. -/
def removeS (bb : ButtonBox) (position : Option Int) : ButtonBox :=
  removeSAt bb
    (match position with
     | Option.none => bb.position
     | some q => if q = 0 then bb.position else q)

/-! ## Helper lemmas -/

theorem listAllTimeGo_spec (pred : Record → Bool) (limit : Nat) :
    ∀ (infos : List RawInfo) (acc : List Record), acc.length < limit →
      listAllTimeGo pred limit infos acc
        = acc.reverse ++ ((infos.map buildDatasetRecord).filter pred).take (limit - acc.length) := by
  intro infos
  induction infos with
  | nil => intro acc _; simp [listAllTimeGo]
  | cons info infos ih =>
    intro acc hacc
    by_cases hp : pred (buildDatasetRecord info) = true
    · by_cases hstop : limit ≤ acc.length + 1
      · have hlim : limit - acc.length = 1 := by omega
        simp [listAllTimeGo, hp, hstop, hlim]
      · have h1 : (acc.length + 1) < limit := by omega
        have := ih (buildDatasetRecord info :: acc) (by simpa using h1)
        simp only [listAllTimeGo, hp, if_true, if_neg hstop, this]
        have hlen : limit - acc.length = (limit - (acc.length + 1)) + 1 := by omega
        simp [List.filter_cons, hp, hlen, List.take_succ_cons]
    · have := ih acc hacc
      simp only [listAllTimeGo, Bool.not_eq_true] at hp ⊢
      simp [hp, this, List.filter_cons]

theorem mem_listAllTimeGo (pred : Record → Bool) (limit : Nat) :
    ∀ (infos : List RawInfo) (acc : List Record) (r : Record),
      r ∈ listAllTimeGo pred limit infos acc → r ∈ acc ∨ pred r = true := by
  intro infos
  induction infos with
  | nil => intro acc r h; simp [listAllTimeGo] at h; exact Or.inl h
  | cons info infos ih =>
    intro acc r h
    by_cases hp : pred (buildDatasetRecord info) = true
    · by_cases hstop : limit ≤ acc.length + 1
      · simp [listAllTimeGo, hp, hstop] at h
        rcases h with h | h
        · exact Or.inl h
        · exact Or.inr (h ▸ hp)
      · simp only [listAllTimeGo, hp, if_true, if_neg hstop] at h
        rcases ih _ _ h with h' | h'
        · rcases List.mem_cons.mp h' with h'' | h''
          · exact Or.inr (h'' ▸ hp)
          · exact Or.inl h''
        · exact Or.inr h'
    · simp only [listAllTimeGo, Bool.not_eq_true] at hp
      simp only [listAllTimeGo, hp, Bool.false_eq_true, if_false] at h
      exact ih _ _ h

theorem collectStats_spec (statsOf : RawInfo → Option DatasetStats) (limit : Nat) :
    ∀ (ds : List RawInfo) (acc : List DatasetStats), acc.length ≤ limit →
      collectStats statsOf limit ds acc
        = acc.reverse ++ (ds.filterMap statsOf).take (limit - acc.length) := by
  intro ds
  induction ds with
  | nil => intro acc _; simp [collectStats]
  | cons d ds ih =>
    intro acc hacc
    by_cases hstop : limit ≤ acc.length
    · have hlim : limit - acc.length = 0 := by omega
      simp [collectStats, hstop, hlim]
    · cases hs : statsOf d with
      | none => simp [collectStats, hstop, ih acc hacc, List.filterMap_cons, hs]
      | some s =>
        have := ih (s :: acc) (by simp; omega)
        simp only [collectStats, if_neg hstop, hs, this]
        have hlen : limit - acc.length = (limit - (acc.length + 1)) + 1 := by omega
        simp [List.filterMap_cons, hs, hlen, List.take_succ_cons]

theorem mem_insertDesc (key : DatasetStats → Int) (x : DatasetStats) :
    ∀ (l : List DatasetStats) (a : DatasetStats),
      a ∈ insertDesc key x l ↔ a = x ∨ a ∈ l := by
  intro l
  induction l with
  | nil => intro a; simp [insertDesc]
  | cons y ys ih =>
    intro a
    by_cases h : key y ≤ key x
    · simp [insertDesc, h]
    · simp [insertDesc, h, ih]
      tauto

theorem insertDesc_perm (key : DatasetStats → Int) (x : DatasetStats) :
    ∀ l : List DatasetStats, (insertDesc key x l).Perm (x :: l) := by
  intro l
  induction l with
  | nil => simp [insertDesc]
  | cons y ys ih =>
    by_cases h : key y ≤ key x
    · simp [insertDesc, h]
    · simp only [insertDesc, if_neg h]
      exact (ih.cons y).trans (List.Perm.swap x y ys)

theorem insertDesc_pairwise (key : DatasetStats → Int) (x : DatasetStats) :
    ∀ l : List DatasetStats, l.Pairwise (fun a b => key b ≤ key a) →
      (insertDesc key x l).Pairwise (fun a b => key b ≤ key a) := by
  intro l
  induction l with
  | nil => intro _; simp [insertDesc]
  | cons y ys ih =>
    intro hl
    rcases List.pairwise_cons.mp hl with ⟨hy, hys⟩
    by_cases h : key y ≤ key x
    · simp only [insertDesc, if_pos h]
      refine List.pairwise_cons.mpr ⟨?_, hl⟩
      intro b hb
      rcases List.mem_cons.mp hb with hb | hb
      · exact hb ▸ h
      · exact le_trans (hy b hb) h
    · simp only [insertDesc, if_neg h]
      refine List.pairwise_cons.mpr ⟨?_, ih hys⟩
      intro b hb
      rcases (mem_insertDesc key x ys b).mp hb with hb | hb
      · exact hb ▸ (le_of_not_le h)
      · exact hy b hb

theorem insertDesc_filter (key : DatasetStats → Int) (v : Int) (x : DatasetStats) :
    ∀ l : List DatasetStats,
      (insertDesc key x l).filter (fun a => key a = v)
        = if key x = v then x :: l.filter (fun a => key a = v)
          else l.filter (fun a => key a = v) := by
  intro l
  induction l with
  | nil =>
    simp only [insertDesc]
    by_cases h : key x = v <;> simp [List.filter_cons, h]
  | cons y ys ih =>
    simp only [insertDesc]
    by_cases h : key y ≤ key x
    · simp only [if_pos h, List.filter_cons]
      by_cases hx : key x = v <;> by_cases hy : key y = v <;> simp [hx, hy]
    · simp only [if_neg h, List.filter_cons]
      by_cases hy : key y = v
      · have hx : ¬ key x = v := fun hx => h (le_of_eq (hy.trans hx.symm))
        simp [hy, hx, ih]
      · by_cases hx : key x = v <;> simp [hy, hx, ih]

theorem pySortDesc_perm (key : DatasetStats → Int) :
    ∀ l : List DatasetStats, (pySortDesc key l).Perm l := by
  intro l
  induction l with
  | nil => simp [pySortDesc]
  | cons x xs ih => exact (insertDesc_perm key x (pySortDesc key xs)).trans (ih.cons x)

theorem pySortDesc_pairwise (key : DatasetStats → Int) :
    ∀ l : List DatasetStats,
      (pySortDesc key l).Pairwise (fun a b => key b ≤ key a) := by
  intro l
  induction l with
  | nil => simp [pySortDesc]
  | cons x xs ih => exact insertDesc_pairwise key x _ ih

theorem pySortDesc_stable (key : DatasetStats → Int) (v : Int) :
    ∀ l : List DatasetStats,
      (pySortDesc key l).filter (fun a => key a = v)
        = l.filter (fun a => key a = v) := by
  intro l
  induction l with
  | nil => simp [pySortDesc]
  | cons x xs ih =>
    by_cases hx : key x = v <;>
      simp [pySortDesc, insertDesc_filter, hx, List.filter_cons, ih]

theorem timeFiltered_sublist (now : Int) (timePeriod : String)
    (datasets : List DatasetStats) :
    (timeFiltered now timePeriod datasets).Sublist datasets := by
  unfold timeFiltered
  split
  · exact List.Sublist.refl _
  · exact List.filter_sublist _

theorem timeFiltered_all (now : Int) (datasets : List DatasetStats) :
    timeFiltered now "all" datasets = datasets := by
  simp [timeFiltered]

theorem mem_applyFilters (now : Int) (timePeriod sortBy : String)
    (datasets : List DatasetStats) (d : DatasetStats)
    (h : d ∈ applyFilters now timePeriod sortBy datasets) : d ∈ datasets := by
  have hsub := (timeFiltered_sublist now timePeriod datasets).subset
  unfold applyFilters at h
  split at h
  · exact hsub (((pySortDesc_perm _ _).mem_iff).mp h)
  · split at h
    · exact hsub (((pySortDesc_perm _ _).mem_iff).mp h)
    · split at h
      · exact hsub (((pySortDesc_perm _ _).mem_iff).mp h)
      · split at h
        · exact hsub (((pySortDesc_perm _ _).mem_iff).mp h)
        · exact hsub h

theorem sortSpec (key : DatasetStats → Int) (now : Int) (tp : String)
    (input : List DatasetStats) (v : Int) :
    ((pySortDesc key (timeFiltered now tp input)).filter
        (fun d => decide (key d = v))).Sublist
      (input.filter (fun d => decide (key d = v)))
    ∧ (pySortDesc key (timeFiltered now "all" input)).filter (fun d => decide (key d = v))
        = input.filter (fun d => decide (key d = v))
    ∧ (pySortDesc key (timeFiltered now tp input)).Pairwise (fun a b => key b ≤ key a) := by
  refine ⟨?_, ?_, ?_⟩
  · rw [pySortDesc_stable]
    exact (timeFiltered_sublist now tp input).filter _
  · rw [timeFiltered_all, pySortDesc_stable]
  · exact pySortDesc_pairwise key _

/-! ## Claim theorems -/

/-- C3: for each of the four sort keys, the sorting of
`DatasetManager._apply_filters` is stable descending: the output
restricted to any fixed key value is an order-preserving subsequence of
the input so restricted (and, with no time window, exactly the input so
restricted), the output is pairwise descending in the key, and the
spec's example holds: downloads `[a:100, b:500, c:500]` truncated to 2
yields `[b, c]` with the tied items in input order. -/
theorem c3_stable_descending_sort :
    (∀ sortBy : String,
      sortBy ∈ (["downloads", "likes", "updated", "created"] : List String) →
      ∀ (now : Int) (timePeriod : String) (input : List DatasetStats) (v : Int),
        ((applyFilters now timePeriod sortBy input).filter
            (fun d => decide (sortKeyOf sortBy d = v))).Sublist
          (input.filter (fun d => decide (sortKeyOf sortBy d = v)))
        ∧ (applyFilters now "all" sortBy input).filter
            (fun d => decide (sortKeyOf sortBy d = v))
            = input.filter (fun d => decide (sortKeyOf sortBy d = v))
        ∧ (applyFilters now timePeriod sortBy input).Pairwise
            (fun a b => sortKeyOf sortBy b ≤ sortKeyOf sortBy a))
    ∧ (applyFilters 0 "all" "downloads"
          [mkStats 0 "a" { id := "a", downloads := some 100 },
           mkStats 0 "b" { id := "b", downloads := some 500 },
           mkStats 0 "c" { id := "c", downloads := some 500 }]).take 2
        = [mkStats 0 "b" { id := "b", downloads := some 500 },
           mkStats 0 "c" { id := "c", downloads := some 500 }] := by
  constructor
  · intro sortBy hsb now timePeriod input v
    fin_cases hsb
    · have h := sortSpec (fun d => d.downloads) now timePeriod input v
      refine ⟨?_, ?_, ?_⟩
      · simpa [applyFilters, sortKeyOf] using h.1
      · simpa [applyFilters, sortKeyOf] using h.2.1
      · simpa [applyFilters, sortKeyOf] using h.2.2
    · have h := sortSpec (fun d => d.likes) now timePeriod input v
      refine ⟨?_, ?_, ?_⟩
      · simpa [applyFilters, sortKeyOf] using h.1
      · simpa [applyFilters, sortKeyOf] using h.2.1
      · simpa [applyFilters, sortKeyOf] using h.2.2
    · have h := sortSpec (fun d => d.updatedAt) now timePeriod input v
      refine ⟨?_, ?_, ?_⟩
      · simpa [applyFilters, sortKeyOf] using h.1
      · simpa [applyFilters, sortKeyOf] using h.2.1
      · simpa [applyFilters, sortKeyOf] using h.2.2
    · have h := sortSpec (fun d => d.createdAt) now timePeriod input v
      refine ⟨?_, ?_, ?_⟩
      · simpa [applyFilters, sortKeyOf] using h.1
      · simpa [applyFilters, sortKeyOf] using h.2.1
      · simpa [applyFilters, sortKeyOf] using h.2.2
  · decide

/-- Witness for C3: the universally quantified part applied at the
`downloads` key and the spec's three example items, key value 500. -/
theorem c3_stable_descending_sort_witness :
    ("downloads" : String) ∈ (["downloads", "likes", "updated", "created"] : List String)
    ∧ (applyFilters 0 "all" "downloads"
          [mkStats 0 "a" { id := "a", downloads := some 100 },
           mkStats 0 "b" { id := "b", downloads := some 500 },
           mkStats 0 "c" { id := "c", downloads := some 500 }]).filter
          (fun d => decide (sortKeyOf "downloads" d = 500))
        = [mkStats 0 "a" { id := "a", downloads := some 100 },
           mkStats 0 "b" { id := "b", downloads := some 500 },
           mkStats 0 "c" { id := "c", downloads := some 500 }].filter
          (fun d => decide (sortKeyOf "downloads" d = 500)) :=
  ⟨by decide,
    (c3_stable_descending_sort.1 "downloads" (by decide) 0 "all"
      [mkStats 0 "a" { id := "a", downloads := some 100 },
       mkStats 0 "b" { id := "b", downloads := some 500 },
       mkStats 0 "c" { id := "c", downloads := some 500 }] 500).2.1⟩

/-- C1 (amended): where truncation happens relative to filtering and
sorting.  In `list_all_time` the `limit` cut is applied strictly after
filtering -- the result is exactly the first `limit` records of the
filtered sequence in backend order, and it inherits any ordering the
backend list satisfies -- but in
`DatasetManager.get_popular_datasets` the candidate pool is already
truncated to the first `limit` valid stats before filtering and
sorting (and truncated once more afterwards). -/
theorem c1_truncation_order :
    (∀ (infos : List RawInfo) (limit : Nat) (s t lang : String) (lic card : Bool),
       1 ≤ limit →
       listAllTime infos limit s t lang lic card
         = ((infos.map buildDatasetRecord).filter (recordPred s t lang lic card)).take limit)
    ∧ (∀ (infos : List RawInfo) (limit : Nat) (s t lang : String) (lic card : Bool)
         (R : Record → Record → Prop),
       1 ≤ limit →
       ((infos.map buildDatasetRecord).filter (recordPred s t lang lic card)).Pairwise R →
       (listAllTime infos limit s t lang lic card).Pairwise R)
    ∧ (∀ (statsOf : RawInfo → Option DatasetStats) (now : Int) (tp : String)
         (limit : Nat) (sb : String) (ds : List RawInfo),
       getPopularDatasets statsOf now tp limit sb ds
         = (applyFilters now tp sb ((ds.filterMap statsOf).take limit)).take limit) := by
  have h1 : ∀ (infos : List RawInfo) (limit : Nat) (s t lang : String) (lic card : Bool),
      1 ≤ limit →
      listAllTime infos limit s t lang lic card
        = ((infos.map buildDatasetRecord).filter (recordPred s t lang lic card)).take limit := by
    intro infos limit s t lang lic card h
    unfold listAllTime
    rw [listAllTimeGo_spec _ _ infos [] (by simpa using h)]
    simp
  refine ⟨h1, ?_, ?_⟩
  · intro infos limit s t lang lic card R h hp
    rw [h1 infos limit s t lang lic card h]
    exact hp.sublist (List.take_sublist _ _)
  · intro statsOf now tp limit sb ds
    unfold getPopularDatasets
    rw [collectStats_spec _ _ ds [] (by simp)]
    simp

/-- Witness for C1 (amended): the `list_all_time` part applied at a
one-element backend list and limit 1. -/
theorem c1_truncation_order_witness :
    (1 : Nat) ≤ 1
    ∧ listAllTime [{ id := "w" }] 1 "" "Any" "Any" false false
        = (([{ id := "w" }].map buildDatasetRecord).filter
            (recordPred "" "Any" "Any" false false)).take 1 :=
  ⟨le_refl 1, c1_truncation_order.1 [{ id := "w" }] 1 "" "Any" "Any" false false (le_refl 1)⟩

/-- Counterexample for C1 as stated: `get_popular_datasets` with
`limit = 1` over a backend list holding `a` (100 downloads) and `b`
(500 downloads), both of which pass every filter (time period `all`):
the collection loop stops after the first valid candidate, so the query
returns `a`, not the top-ranked item `b` -- even though, as the third
conjunct shows, filtering and sorting the full pool ranks `b` first. -/
theorem c1_truncation_order_counterexample :
    (getPopularDatasets (fun d => some (mkStats 0 d.id d)) 0 "all" 1 "downloads"
        [{ id := "a", downloads := some 100 },
         { id := "b", downloads := some 500 }]).map DatasetStats.id = ["a"]
    ∧ ¬ ((getPopularDatasets (fun d => some (mkStats 0 d.id d)) 0 "all" 1 "downloads"
        [{ id := "a", downloads := some 100 },
         { id := "b", downloads := some 500 }]).map DatasetStats.id = ["b"])
    ∧ (applyFilters 0 "all" "downloads"
        [mkStats 0 "a" { id := "a", downloads := some 100 },
         mkStats 0 "b" { id := "b", downloads := some 500 }]).map DatasetStats.id
        = ["b", "a"] := by
  decide

/-- C2 (code bug evidence): `get_dataset_stats` carries its own TTL
cache, but the `@lru_cache` decorator on the method memoizes the result
by argument, so a repeat call for the same id after the TTL (here at
`t = 3601 > 3600`) returns the memoized value without ever re-invoking
the producer: the total producer count stays 1 and the stale value is
returned (first two conjuncts).  The TTL logic in the body, run without
the decorator, would have re-invoked the producer (third conjunct,
count 2), which is what the claim -- and the body's own cache-expiry
check -- expects. -/
theorem c2_lru_cache_shadows_ttl :
    (getDatasetStats (fun s => some { id := s, downloads := some 100 }) 3601 "a"
        (getDatasetStats (fun s => some { id := s, downloads := some 100 }) 0 "a"
          ⟨[], [], 0⟩).2).2.fetchCount = 1
    ∧ (getDatasetStats (fun s => some { id := s, downloads := some 100 }) 3601 "a"
        (getDatasetStats (fun s => some { id := s, downloads := some 100 }) 0 "a"
          ⟨[], [], 0⟩).2).1
      = (getDatasetStats (fun s => some { id := s, downloads := some 100 }) 0 "a"
          ⟨[], [], 0⟩).1
    ∧ (getDatasetStatsBody (fun s => some { id := s, downloads := some 100 }) 3601 "a"
        (getDatasetStatsBody (fun s => some { id := s, downloads := some 100 }) 0 "a"
          ⟨[], [], 0⟩).2).2.fetchCount = 2 := by
  decide

/-- C4: tag-source normalization is representation-independent -- a
single string, the one-element list of it, and a mapping carrying it as
a value all flatten to the same deduplicated lowercase tag list, and in
general a mapping normalizes exactly as the list of its values does;
the result is always duplicate-free; and the spec's example holds: a
raw `task_categories` mapping of `Translation` yields the single tag
`translation`, and such an item passes a `task = "translation"`
filter. -/
theorem c4_representation_independent_normalization :
    (∀ s k : String,
       lowerFlatten (normalizeList (.str s)) = lowerFlatten (normalizeList (.list [.str s]))
       ∧ lowerFlatten (normalizeList (.str s))
           = lowerFlatten (normalizeList (.dict [(k, .str s)])))
    ∧ (∀ kvs : List (String × PyVal),
       lowerFlatten (normalizeList (.dict kvs))
         = lowerFlatten (normalizeList (.list (kvs.map Prod.snd))))
    ∧ (∀ items : List PyVal, (lowerFlatten items).Nodup)
    ∧ extractTasks (.dict [("task_categories", .dict [("x", .str "Translation")])])
        = ["translation"]
    ∧ (listAllTime
        [{ id := "t1",
           cardData := .dict [("task_categories", .dict [("x", .str "Translation")])] }]
        50 "" "translation" "Any" false false).map Record.id = ["t1"] := by
  refine ⟨fun s k => ⟨rfl, rfl⟩, fun kvs => rfl, fun items => List.nodup_dedup _, ?_, ?_⟩
  · decide
  · decide

theorem recordPred_multi_neutral (r : Record) :
    recordPred "" "Any" "multi" false false r
      = (decide (1 < r.languages.length) || r.languages.contains "multilingual") := by
  have hs : pyLower (pyStrip "") = "" := rfl
  simp [recordPred, hs]

/-- C5: the `multi` language filter of `list_all_time`.  First, every
record the query returns has more than one language tag or an explicit
`multilingual` tag (so an item with exactly one other language tag is
excluded), whatever the other filter settings; second, with the other
filters neutral and a limit at least the number of matches, the result
is exactly the records satisfying that condition. -/
theorem c5_multi_language_filter :
    (∀ (infos : List RawInfo) (limit : Nat) (search task : String) (lic card : Bool)
       (r : Record),
       r ∈ listAllTime infos limit search task "multi" lic card →
       1 < r.languages.length ∨ "multilingual" ∈ r.languages)
    ∧ (∀ (infos : List RawInfo) (limit : Nat),
       1 ≤ limit →
       ((infos.map buildDatasetRecord).filter
          (fun r => decide (1 < r.languages.length)
            || r.languages.contains "multilingual")).length ≤ limit →
       listAllTime infos limit "" "Any" "multi" false false
         = (infos.map buildDatasetRecord).filter
             (fun r => decide (1 < r.languages.length)
               || r.languages.contains "multilingual")) := by
  constructor
  · intro infos limit search task lic card r hmem
    unfold listAllTime at hmem
    rcases mem_listAllTimeGo _ _ infos [] r hmem with h | h
    · simp at h
    · simp only [recordPred, Bool.and_eq_true] at h
      have hlang := h.1.1.2
      simp at hlang
      rcases hlang with h' | h'
      · exact Or.inl h'
      · exact Or.inr h'
  · intro infos limit h1 hlen
    unfold listAllTime
    rw [listAllTimeGo_spec _ _ infos [] (by simpa using h1)]
    simp only [List.reverse_nil, List.nil_append, List.length_nil, Nat.sub_zero]
    rw [List.filter_congr (fun r _ => recordPred_multi_neutral r)]
    exact List.take_of_length_le hlen

/-- Witness for C5: the exactness part applied to a two-item backend
list (one record with two language tags, one with a single `en` tag)
at limit 50. -/
theorem c5_multi_language_filter_witness :
    (1 : Nat) ≤ 50
    ∧ (([{ id := "m", cardData := .dict [("language", .list [.str "en", .str "de"])] },
         { id := "s", cardData := .dict [("language", .str "en")] }].map
           buildDatasetRecord).filter
         (fun r => decide (1 < r.languages.length)
           || r.languages.contains "multilingual")).length ≤ 50
    ∧ listAllTime
        [{ id := "m", cardData := .dict [("language", .list [.str "en", .str "de"])] },
         { id := "s", cardData := .dict [("language", .str "en")] }]
        50 "" "Any" "multi" false false
        = ([{ id := "m", cardData := .dict [("language", .list [.str "en", .str "de"])] },
            { id := "s", cardData := .dict [("language", .str "en")] }].map
            buildDatasetRecord).filter
            (fun r => decide (1 < r.languages.length)
              || r.languages.contains "multilingual")
    ∧ (1 < (buildDatasetRecord
          { id := "m",
            cardData := .dict [("language", .list [.str "en", .str "de"])] }).languages.length
        ∨ "multilingual" ∈ (buildDatasetRecord
          { id := "m",
            cardData := .dict [("language", .list [.str "en", .str "de"])] }).languages) :=
  ⟨by decide, by decide,
    c5_multi_language_filter.2
      [{ id := "m", cardData := .dict [("language", .list [.str "en", .str "de"])] },
       { id := "s", cardData := .dict [("language", .str "en")] }]
      50 (by decide) (by decide),
    c5_multi_language_filter.1
      [{ id := "m", cardData := .dict [("language", .list [.str "en", .str "de"])] }]
      50 "" "Any" false false
      (buildDatasetRecord
        { id := "m", cardData := .dict [("language", .list [.str "en", .str "de"])] })
      (by
        rw [show listAllTime
            [{ id := "m", cardData := .dict [("language", .list [.str "en", .str "de"])] }]
            50 "" "Any" "multi" false false
          = [buildDatasetRecord
              { id := "m",
                cardData := .dict [("language", .list [.str "en", .str "de"])] }] from rfl]
        exact List.mem_singleton_self _)⟩

/-- C6 (amended): transport and decoding failures are swallowed, not
propagated.  Any failure of the trending fetch makes `list_trending`
return the empty list, and any failure inside
`get_popular_datasets` is caught, printed, and turned into the empty
list; no `FetchError` (the sources define no such type) reaches the
caller. -/
theorem c6_failures_swallowed :
    (∀ (e : String) (infoOf : String → Option RawInfo) (limit : Nat)
       (s t lang : String) (lic card : Bool),
       listTrending (.error e) infoOf limit s t lang lic card = [])
    ∧ (∀ (e : String) (statsOf : RawInfo → Option DatasetStats) (now : Int)
       (tp : String) (limit : Nat) (sb : String),
       getPopularDatasetsTop (.error e) statsOf now tp limit sb = []) :=
  ⟨fun _ _ _ _ _ _ _ _ => rfl, fun _ _ _ _ _ _ => rfl⟩

/-- Counterexample for C6 as stated: a concrete transport failure of
the trending endpoint yields the empty list -- the very same value as a
successful fetch of an empty payload -- and a concrete failure in
`get_popular_datasets` also yields the empty list; no explicit error
value carrying the cause is returned to the caller in either case. -/
theorem c6_failures_swallowed_counterexample :
    listTrending (.error "ConnectionError: connection refused")
        (fun _ => Option.none) 50 "" "Any" "Any" false false = []
    ∧ listTrending (.ok []) (fun _ => Option.none) 50 "" "Any" "Any" false false = []
    ∧ getPopularDatasetsTop (.error "HTTPError: 500")
        (fun _ => Option.none) 0 "all" 50 "downloads" = [] :=
  ⟨rfl, rfl, rfl⟩

/-- Counterexample for C7 as stated: selecting the id `a` when the
current list holds only `b` does not fail with a `NotFoundError` (the
sources define no such type).  The qwen3 handler prints the plain
message `Dataset a not found.` as a normal outcome, and the gpt5
handler falls back to fetching the dataset info directly and renders
the details built from it. -/
theorem c7_not_found_counterexample :
    showDatasetDetails (.ok [{ id := "b" }]) "a"
        = .printedNotFound "Dataset a not found."
    ∧ onSelect [("b", buildDatasetRecord { id := "b" })]
        (fun s => .ok { id := s }) "a"
        = .rendered (buildDatasetRecord { id := "a" }) :=
  ⟨rfl, rfl⟩

/-- C7 (amended): selecting an id absent from the current list never
raises.  The qwen3 handler prints `Dataset <id> not found.` whenever
the re-fetched list holds no record with the clicked id; the gpt5
handler, when the id is absent from `_current_records` and the fallback
fetch succeeds, renders the record built from the fetched info (a
failing fallback shows the exception text instead of raising); and the
click handler itself always sets the selection to the clicked button
(so the prior selection is overwritten, not preserved). -/
theorem c7_selection_miss_behaviour :
    (∀ (datasets : List RawInfo) (datasetId : String),
       (∀ d ∈ datasets, ¬ d.id = datasetId) →
       showDatasetDetails (.ok datasets) datasetId
         = .printedNotFound ("Dataset " ++ datasetId ++ " not found."))
    ∧ (∀ (recs : List (String × Record)) (fetchInfo : String → Except String RawInfo)
         (datasetId : String) (info : RawInfo),
       lookupA recs datasetId = Option.none → fetchInfo datasetId = .ok info →
       onSelect recs fetchInfo datasetId = .rendered (buildDatasetRecord info))
    ∧ (∀ (bb : ButtonBox) (i : Nat) (h : i < bb.buttons.length),
       (clickButton bb i h).position = i
       ∧ (clickButton bb i h).button = some (bb.buttons.get ⟨i, h⟩)) := by
  refine ⟨?_, ?_, ?_⟩
  · intro datasets datasetId hall
    have hfind : datasets.find? (fun ds => ds.id = datasetId) = Option.none := by
      apply List.find?_eq_none.mpr
      intro d hd
      simpa using hall d hd
    simp only [showDatasetDetails, hfind]
  · intro recs fetchInfo datasetId info hllookup hfetch
    simp only [onSelect, hllookup, hfetch]
  · intro bb i h
    exact ⟨rfl, rfl⟩

/-- Witness for C7 (amended): the three parts applied at concrete
states -- an empty re-fetched list, a record table without the clicked
id with a successful fallback fetch, and a click on the first of two
buttons. -/
theorem c7_selection_miss_behaviour_witness :
    (∀ d ∈ ([] : List RawInfo), ¬ d.id = "z")
    ∧ showDatasetDetails (.ok []) "z" = .printedNotFound "Dataset z not found."
    ∧ onSelect [] (fun s => .ok { id := s }) "z"
        = .rendered (buildDatasetRecord { id := "z" })
    ∧ (clickButton ⟨[⟨"b1", "b1"⟩, ⟨"b2", "b2"⟩], -1, Option.none⟩ 0 (by decide)).position = 0 :=
  ⟨by simp,
    c7_selection_miss_behaviour.1 [] "z" (by simp),
    c7_selection_miss_behaviour.2.1 [] (fun s => .ok { id := s }) "z" { id := "z" } rfl rfl,
    (c7_selection_miss_behaviour.2.2 ⟨[⟨"b1", "b1"⟩, ⟨"b2", "b2"⟩], -1, Option.none⟩ 0
      (by decide)).1⟩

/-- C8 (amended): `build_dataset_record` is a pure total function of
the raw record (embodied by its very definition as a Lean function):
with every optional attribute missing it returns the fully defaulted
record -- `None` counters and timestamp, `None` card and license, and
empty task and language lists.  The counters default to `None`, not to
zero. -/
theorem c8_normalize_total_defaults :
    ∀ dsId : String,
      buildDatasetRecord { id := dsId }
        = { id := dsId, downloads := Option.none, likes := Option.none,
            lastModified := Option.none, card := .none, tasks := [],
            languages := [], license := .none } := by
  intro dsId
  rfl

/-- Counterexample for C8 as stated: the record built from a raw
record with no `downloads` attribute carries `None`, not the claimed
zero default. -/
theorem c8_normalize_total_defaults_counterexample :
    (buildDatasetRecord { id := "org/data" }).downloads = Option.none
    ∧ ¬ ((buildDatasetRecord { id := "org/data" }).downloads = some 0) := by
  refine ⟨rfl, ?_⟩
  decide

/-- C9 (amended): the popularity counters are passed through from the
source.  The sonnet4 normalizer (`get_dataset_stats`) defaults them to
`0` when the attribute is missing and yields a non-negative value
whenever the source value is non-negative; the gpt5 normalizer
(`build_dataset_record`) leaves a missing counter as `None`; and
`_apply_filters` only selects and reorders records, so every output
record (with its counters) is one of the input records. -/
theorem c9_counter_defaults_and_preservation :
    (∀ (now : Int) (dsId : String) (info : RawInfo),
       info.downloads = Option.none → (mkStats now dsId info).downloads = 0)
    ∧ (∀ (now : Int) (dsId : String) (info : RawInfo),
       info.likes = Option.none → (mkStats now dsId info).likes = 0)
    ∧ (∀ (now : Int) (dsId : String) (info : RawInfo) (n : Int),
       info.downloads = some n → 0 ≤ n → 0 ≤ (mkStats now dsId info).downloads)
    ∧ (∀ (now : Int) (dsId : String) (info : RawInfo) (n : Int),
       info.likes = some n → 0 ≤ n → 0 ≤ (mkStats now dsId info).likes)
    ∧ (∀ info : RawInfo,
       info.downloads = Option.none → (buildDatasetRecord info).downloads = Option.none)
    ∧ (∀ (now : Int) (tp sb : String) (l : List DatasetStats) (d : DatasetStats),
       d ∈ applyFilters now tp sb l → d ∈ l) := by
  refine ⟨?_, ?_, ?_, ?_, ?_, ?_⟩
  · intro now dsId info h
    simp [mkStats, pyOrZero, h]
  · intro now dsId info h
    simp [mkStats, pyOrZero, h]
  · intro now dsId info n h hn
    simp only [mkStats, pyOrZero, h]
    split
    · exact le_refl 0
    · exact hn
  · intro now dsId info n h hn
    simp only [mkStats, pyOrZero, h]
    split
    · exact le_refl 0
    · exact hn
  · intro info h
    simp [buildDatasetRecord, h]
  · intro now tp sb l d h
    exact mem_applyFilters now tp sb l d h

/-- Counterexample for C9 as stated: a raw record whose source
`downloads` value is the integer `-5` normalizes (sonnet4) to the
negative counter `-5`, and a raw record with the counter missing
normalizes (gpt5) to `None` rather than the claimed zero default. -/
theorem c9_counter_defaults_counterexample :
    (mkStats 0 "x" { id := "x", downloads := some (-5) }).downloads = -5
    ∧ ¬ (0 ≤ (mkStats 0 "x" { id := "x", downloads := some (-5) }).downloads)
    ∧ (buildDatasetRecord { id := "y" }).likes = Option.none
    ∧ ¬ ((buildDatasetRecord { id := "y" }).likes = some 0) := by
  refine ⟨rfl, by decide, rfl, by decide⟩

/-- Witness for C9 (amended): the parts applied at concrete records --
missing counters default to 0 (sonnet4) and stay `None` (gpt5), a
present value 7 stays non-negative, and a membership in a concrete
filtered result. -/
theorem c9_counter_defaults_witness :
    (mkStats 0 "w" { id := "w" }).downloads = 0
    ∧ (mkStats 0 "w" { id := "w" }).likes = 0
    ∧ 0 ≤ (mkStats 0 "w" { id := "w", downloads := some 7 }).downloads
    ∧ 0 ≤ (mkStats 0 "w" { id := "w", likes := some 7 }).likes
    ∧ (buildDatasetRecord { id := "w" }).downloads = Option.none
    ∧ mkStats 0 "w" { id := "w" } ∈ [mkStats 0 "w" { id := "w" }] :=
  ⟨c9_counter_defaults_and_preservation.1 0 "w" { id := "w" } rfl,
   c9_counter_defaults_and_preservation.2.1 0 "w" { id := "w" } rfl,
   c9_counter_defaults_and_preservation.2.2.1 0 "w" { id := "w", downloads := some 7 } 7
     rfl (by decide),
   c9_counter_defaults_and_preservation.2.2.2.1 0 "w" { id := "w", likes := some 7 } 7
     rfl (by decide),
   c9_counter_defaults_and_preservation.2.2.2.2.1 { id := "w" } rfl,
   c9_counter_defaults_and_preservation.2.2.2.2.2 0 "all" "downloads"
     [mkStats 0 "w" { id := "w" }] (mkStats 0 "w" { id := "w" })
     (by
       rw [show applyFilters 0 "all" "downloads" [mkStats 0 "w" { id := "w" }]
           = [mkStats 0 "w" { id := "w" }] from rfl]
       exact List.mem_singleton_self _)⟩

/-- C10: whenever `remove` actually removes a button, the selection
state is cleared -- `button` becomes `None` and `position` becomes
`-1` -- regardless of whether the removed button was the selected one
(the first part quantifies over every selection state).  For the gpt5
variant any explicit in-range position removes exactly one button and
clears the selection; for the sonnet4/qwen3 variant, whose truthiness
guards can redirect or swallow the call, the clearing still holds on
every call that changes the button list. -/
theorem c10_remove_clears_selection :
    (∀ (bb : ButtonBox) (p : Int), 0 ≤ p → p < bb.buttons.length →
       (removeG bb (some p)).button = Option.none
       ∧ (removeG bb (some p)).position = -1
       ∧ (removeG bb (some p)).buttons.length + 1 = bb.buttons.length)
    ∧ (∀ (bb : ButtonBox) (pos : Option Int),
       ¬ ((removeS bb pos).buttons = bb.buttons) →
       (removeS bb pos).button = Option.none ∧ (removeS bb pos).position = -1) := by
  constructor
  · intro bb p h0 hlt
    have hguard : ¬ (¬ (p : Int) < bb.buttons.length ∨ p < 0) := by
      push_neg
      exact ⟨hlt, h0⟩
    have hre : removeG bb (some p)
        = { bb with buttons := bb.buttons.take p.toNat ++ bb.buttons.drop (p.toNat + 1)
                    position := -1
                    button := Option.none } := by
      unfold removeG
      simp only [Option.getD_some, if_neg hguard]
    rw [hre]
    refine ⟨rfl, rfl, ?_⟩
    have hp : p.toNat < bb.buttons.length := by omega
    simp only [List.length_append, List.length_take, List.length_drop]
    omega
  · intro bb pos h
    unfold removeS at h ⊢
    unfold removeSAt at h ⊢
    split
    next hg =>
      rw [if_pos hg] at h
      exact absurd rfl h
    next hg => exact ⟨rfl, rfl⟩

/-- Witness for C10: removing position 0 of a two-button box whose
selected button is the one at position 1 clears the selection (gpt5
variant), and a sonnet4-variant call that does remove a button (explicit
position 1) also clears it. -/
theorem c10_remove_clears_selection_witness :
    (0 : Int) ≤ 0
    ∧ (0 : Int) < (ButtonBox.mk [⟨"b1", "b1"⟩, ⟨"b2", "b2"⟩] 1 (some ⟨"b2", "b2"⟩)).buttons.length
    ∧ (removeG (ButtonBox.mk [⟨"b1", "b1"⟩, ⟨"b2", "b2"⟩] 1 (some ⟨"b2", "b2"⟩))
        (some 0)).button = Option.none
    ∧ ¬ ((removeS (ButtonBox.mk [⟨"b1", "b1"⟩, ⟨"b2", "b2"⟩] 1 (some ⟨"b2", "b2"⟩))
          (some 1)).buttons
        = (ButtonBox.mk [⟨"b1", "b1"⟩, ⟨"b2", "b2"⟩] 1 (some ⟨"b2", "b2"⟩)).buttons)
    ∧ (removeS (ButtonBox.mk [⟨"b1", "b1"⟩, ⟨"b2", "b2"⟩] 1 (some ⟨"b2", "b2"⟩))
        (some 1)).position = -1 :=
  ⟨le_refl 0, by decide,
    (c10_remove_clears_selection.1
      (ButtonBox.mk [⟨"b1", "b1"⟩, ⟨"b2", "b2"⟩] 1 (some ⟨"b2", "b2"⟩)) 0
      (le_refl 0) (by decide)).1,
    by decide,
    (c10_remove_clears_selection.2
      (ButtonBox.mk [⟨"b1", "b1"⟩, ⟨"b2", "b2"⟩] 1 (some ⟨"b2", "b2"⟩)) (some 1)
      (by decide)).2⟩
